import Mathlib

/-!
Shallow embedding of src/crates/recording/src/cursor.rs (the cursor
recording actor of the Cap recording crate).

Modelling conventions:
* f64 values (timestamps, normalized coordinates, hotspots) are modelled
  as rationals; the arithmetic performed by the code (subtraction and
  division on screen coordinates) is exact in the reals for the values of
  interest, so ℚ is a faithful carrier for the formulas.
* u32 counters (cursor ids) are modelled as Nat: the code only ever adds
  one per newly persisted cursor image, so a session can never approach
  2^32 and wrap-around is unreachable.
* The 64-bit fingerprint (std DefaultHasher over the raw bitmap bytes) is
  an external deterministic function; the development is parameterized by
  an arbitrary hash function `hash : List Nat → Nat` over byte lists,
  which captures exactly what the code relies on (determinism).
* The HashMap<u64, Cursor> is modelled as an association list with
  first-match lookup; the code only inserts a key after a failed lookup,
  so no key is ever shadowed and the two models agree.
* Effects of one loop iteration (the mouse sample, the wall-clock reads,
  the platform capture result, and the success or failure of image decode
  and disk save) are supplied as a per-tick input record; the atomic stop
  flag read at the top of each iteration is a per-iteration Bool.
-/

/-- 2D point, from cap_project XY<f64>. -/
structure XY where
  x : ℚ
  y : ℚ
deriving DecidableEq, Repr

/-- Screen pixel bounds, from cap_media platform Bounds. -/
structure Bounds where
  x : ℚ
  y : ℚ
  width : ℚ
  height : ℚ
deriving DecidableEq, Repr

/-- One distinct pointer appearance (struct Cursor in cursor.rs). -/
structure Cursor where
  file_name : String
  id : Nat
  hotspot : XY
deriving DecidableEq, Repr

/-- type Cursors = HashMap<u64, Cursor>, as an association list keyed by
the 64-bit fingerprint. -/
abbrev Cursors := List (Nat × Cursor)

/-- HashMap::get, first-match lookup by key. -/
def cursorsGet (cs : Cursors) (fp : Nat) : Option Cursor :=
  match cs with
  | [] => none
  | (k, c) :: rest => if k = fp then some c else cursorsGet rest fp

/-- CursorMoveEvent from cap_project. -/
structure CursorMoveEvent where
  active_modifiers : List String
  cursor_id : String
  process_time_ms : ℚ
  unix_time_ms : ℚ
  x : ℚ
  y : ℚ
deriving DecidableEq, Repr

/-- CursorClickEvent from cap_project. cursor_num is a u8, written by the
code as `num as u8`, hence the mod 256. -/
structure CursorClickEvent where
  down : Bool
  active_modifiers : List String
  cursor_num : Nat
  cursor_id : String
  process_time_ms : ℚ
  unix_time_ms : ℚ
  x : ℚ
  y : ℚ
deriving DecidableEq, Repr

/-- struct CursorActorResponse: the session accumulator. -/
structure CursorActorResponse where
  cursors : Cursors
  next_cursor_id : Nat
  moves : List CursorMoveEvent
  clicks : List CursorClickEvent

/-- device_query MouseState: pointer coordinates and per-button pressed
state. -/
structure MouseState where
  coords : Int × Int
  button_pressed : List Bool
deriving DecidableEq, Repr

/-- struct CursorData: raw bitmap bytes plus normalized hotspot, as
returned by get_cursor_image_data. -/
structure CursorData where
  image : List Nat
  hotspot : XY
deriving DecidableEq, Repr

/-- The environment of one loop iteration: the mouse sample read at the
top of the tick, the two clock reads, the platform capture result, and
whether image::load_from_memory and RgbaImage::save would succeed on this
tick's bytes. -/
structure TickInput where
  mouse_state : MouseState
  elapsed : ℚ
  unix_time : ℚ
  cursor_data : Option CursorData
  decode_ok : Bool
  save_ok : Bool

/-- One iteration of the while loop as scheduled: the value of the stop
flag observed at the top of the iteration, and the tick's environment. -/
structure LoopStep where
  stop : Bool
  input : TickInput

/-- format!("cursor_\x7b\x7d.png", cursor_id). -/
def cursorFileName (cursor_id : String) : String :=
  "cursor_" ++ cursor_id ++ ".png"

/-- The cursor-identity resolution of one tick (cursor.rs lines 78-118):
returns the cursor_id string put on this tick's events together with the
updated accumulator. On a fresh fingerprint the code fixes the id string
from next_cursor_id before attempting decode and save, and returns that
string whether or not they succeed; only on full success does it insert a
cache entry and advance next_cursor_id. -/
def resolveCursor (hash : List Nat → Nat) (s : CursorActorResponse)
    (cursor_data : Option CursorData) (decode_ok save_ok : Bool) :
    String × CursorActorResponse :=
  match cursor_data with
  | none => ("default", s)
  | some data =>
    let fp := hash data.image
    match cursorsGet s.cursors fp with
    | some existing => (toString existing.id, s)
    | none =>
      let cursor_id := toString s.next_cursor_id
      let file_name := cursorFileName cursor_id
      if decode_ok then
        if save_ok then
          (cursor_id,
            { s with
              cursors := (fp, ⟨file_name, s.next_cursor_id, data.hotspot⟩) :: s.cursors
              next_cursor_id := s.next_cursor_id + 1 })
        else
          (cursor_id, s)
      else
        (cursor_id, s)

/-- x normalization: (mouse_state.coords.0 as f64 - screen_bounds.x) / screen_bounds.width. -/
def normX (bounds : Bounds) (coords : Int × Int) : ℚ :=
  ((coords.1 : ℚ) - bounds.x) / bounds.width

/-- y normalization: (mouse_state.coords.1 as f64 - screen_bounds.y) / screen_bounds.height. -/
def normY (bounds : Bounds) (coords : Int × Int) : ℚ :=
  ((coords.2 : ℚ) - bounds.y) / bounds.height

/-- The CursorClickEvent built by the loop body (cursor.rs lines
141-150): down is the current pressed state, cursor_num the button index
cast to u8, and the remaining fields are the tick's shared values. -/
def mkClickEvent (down : Bool) (cursor_num : Nat) (cursor_id : String)
    (elapsed unix_time x y : ℚ) : CursorClickEvent :=
  { down := down
    active_modifiers := []
    cursor_num := cursor_num
    cursor_id := cursor_id
    process_time_ms := elapsed
    unix_time_ms := unix_time
    x := x
    y := y }

/-- The for loop over mouse_state.button_pressed.iter().enumerate()
(cursor.rs lines 132-152): `num` is the running index, `prev` is looked
up in the previous sample and missing indices are skipped, an event is
produced exactly when the pressed state changed. -/
def clickEventsFrom (prev : List Bool) (cursor_id : String)
    (elapsed unix_time x y : ℚ) : Nat → List Bool → List CursorClickEvent
  | _, [] => []
  | num, pressed :: rest =>
    let tail := clickEventsFrom prev cursor_id elapsed unix_time x y (num + 1) rest
    match prev.get? num with
    | none => tail
    | some p =>
      if pressed = p then tail
      else mkClickEvent pressed (num % 256) cursor_id elapsed unix_time x y :: tail

/-- The body of one while-loop iteration (cursor.rs lines 74-154), given
the previous tick's mouse sample and the accumulator; returns the new
last_mouse_state and the new accumulator. -/
def tick (hash : List Nat → Nat) (bounds : Bounds) (last : MouseState)
    (s : CursorActorResponse) (inp : TickInput) :
    MouseState × CursorActorResponse :=
  let r := resolveCursor hash s inp.cursor_data inp.decode_ok inp.save_ok
  let cursor_id := r.1
  let s1 := r.2
  let x := normX bounds inp.mouse_state.coords
  let y := normY bounds inp.mouse_state.coords
  let s2 :=
    if inp.mouse_state.coords ≠ last.coords then
      { s1 with
        moves := s1.moves ++
          [{ active_modifiers := []
             cursor_id := cursor_id
             process_time_ms := inp.elapsed
             unix_time_ms := inp.unix_time
             x := x
             y := y }] }
    else s1
  let s3 :=
    { s2 with
      clicks := s2.clicks ++
        clickEventsFrom last.button_pressed cursor_id inp.elapsed
          inp.unix_time x y 0 inp.mouse_state.button_pressed }
  (inp.mouse_state, s3)

/-- Folding tick over a list of tick environments (the Running state with
no stop observation). -/
def runTicks (hash : List Nat → Nat) (bounds : Bounds) :
    MouseState → CursorActorResponse → List TickInput →
    MouseState × CursorActorResponse
  | last, s, [] => (last, s)
  | last, s, inp :: rest =>
    let p := tick hash bounds last s inp
    runTicks hash bounds p.1 p.2 rest

/-- The while loop (cursor.rs lines 73-156): the stop flag is read at the
top of each iteration; when it is observed true the loop exits at once
without sampling, otherwise the iteration body runs. An exhausted
schedule means the loop is still running; the accumulator built so far is
returned in either case. -/
def runLoop (hash : List Nat → Nat) (bounds : Bounds) :
    MouseState → CursorActorResponse → List LoopStep → CursorActorResponse
  | _, s, [] => s
  | last, s, step :: rest =>
    if step.stop then s
    else
      let p := tick hash bounds last s step.input
      runLoop hash bounds p.1 p.2 rest

/-- spawn_cursor_recorder (cursor.rs lines 47-163): the actor task seeds
the accumulator from prev_cursors and next_cursor_id, creates the output
directory (dir_ok says whether std fs create_dir_all succeeds; on failure
the unwrap aborts the task before the loop, yielding no accumulator), and
then runs the sampling loop; the final accumulator is sent through the
oneshot channel, modelled as the some-result. -/
def spawn_cursor_recorder (hash : List Nat → Nat) (bounds : Bounds)
    (initMouse : MouseState) (prev_cursors : Cursors)
    (next_cursor_id : Nat) (dir_ok : Bool) (steps : List LoopStep) :
    Option CursorActorResponse :=
  if dir_ok then
    some (runLoop hash bounds initMouse
      { cursors := prev_cursors
        next_cursor_id := next_cursor_id
        moves := []
        clicks := [] } steps)
  else
    none

/-! ### Observation functions on one resolution -/

/-- The identity yielded by one tick's cursor resolution, when one is
yielded at all: the cached identity on a fingerprint hit, the freshly
assigned identity when decode and save both succeed, and none when
capture, decode or save fails (the spec's "no data available"). -/
def resolvedId (hash : List Nat → Nat) (s : CursorActorResponse)
    (inp : TickInput) : Option Nat :=
  match inp.cursor_data with
  | none => none
  | some data =>
    match cursorsGet s.cursors (hash data.image) with
    | some c => some c.id
    | none => if inp.decode_ok && inp.save_ok then some s.next_cursor_id else none

/-- Whether one tick assigns a brand-new identity: capture succeeded, the
fingerprint is not cached, and both decode and save succeed. -/
def assignsNew (hash : List Nat → Nat) (s : CursorActorResponse)
    (inp : TickInput) : Bool :=
  match inp.cursor_data with
  | none => false
  | some data =>
    match cursorsGet s.cursors (hash data.image) with
    | some _ => false
    | none => inp.decode_ok && inp.save_ok

/-! ### Case lemmas for resolveCursor -/
lemma cursorsGet_cons (k : Nat) (c : Cursor) (cs : Cursors) (f : Nat) :
    cursorsGet ((k, c) :: cs) f = if k = f then some c else cursorsGet cs f := rfl

lemma resolveCursor_none (hash : List Nat → Nat) (s : CursorActorResponse)
    (dk sk : Bool) : resolveCursor hash s none dk sk = ("default", s) := rfl

lemma resolveCursor_hit (hash : List Nat → Nat) (s : CursorActorResponse)
    (data : CursorData) (dk sk : Bool) (c : Cursor)
    (h : cursorsGet s.cursors (hash data.image) = some c) :
    resolveCursor hash s (some data) dk sk = (toString c.id, s) := by
  simp only [resolveCursor, h]

lemma resolveCursor_miss_fail (hash : List Nat → Nat) (s : CursorActorResponse)
    (data : CursorData) (dk sk : Bool)
    (h : cursorsGet s.cursors (hash data.image) = none)
    (hfail : dk = false ∨ sk = false) :
    resolveCursor hash s (some data) dk sk = (toString s.next_cursor_id, s) := by
  simp only [resolveCursor, h]
  rcases hfail with hf | hf
  · simp [hf]
  · cases dk <;> simp [hf]

lemma resolveCursor_assign (hash : List Nat → Nat) (s : CursorActorResponse)
    (data : CursorData)
    (h : cursorsGet s.cursors (hash data.image) = none) :
    resolveCursor hash s (some data) true true =
      (toString s.next_cursor_id,
        { s with
          cursors := (hash data.image,
            ⟨cursorFileName (toString s.next_cursor_id), s.next_cursor_id,
              data.hotspot⟩) :: s.cursors
          next_cursor_id := s.next_cursor_id + 1 }) := by
  simp only [resolveCursor, h]
  simp

lemma resolveCursor_moves (hash : List Nat → Nat) (s : CursorActorResponse)
    (d : Option CursorData) (dk sk : Bool) :
    (resolveCursor hash s d dk sk).2.moves = s.moves := by
  rcases d with _ | data
  · rfl
  · rcases h : cursorsGet s.cursors (hash data.image) with _ | c
    · simp only [resolveCursor, h]
      cases dk <;> cases sk <;> simp
    · simp [resolveCursor_hit hash s data dk sk c h]

lemma resolveCursor_clicks (hash : List Nat → Nat) (s : CursorActorResponse)
    (d : Option CursorData) (dk sk : Bool) :
    (resolveCursor hash s d dk sk).2.clicks = s.clicks := by
  rcases d with _ | data
  · rfl
  · rcases h : cursorsGet s.cursors (hash data.image) with _ | c
    · simp only [resolveCursor, h]
      cases dk <;> cases sk <;> simp
    · simp [resolveCursor_hit hash s data dk sk c h]

lemma resolveCursor_next_mono (hash : List Nat → Nat) (s : CursorActorResponse)
    (d : Option CursorData) (dk sk : Bool) :
    s.next_cursor_id ≤ (resolveCursor hash s d dk sk).2.next_cursor_id := by
  rcases d with _ | data
  · exact Nat.le_refl _
  · rcases h : cursorsGet s.cursors (hash data.image) with _ | c
    · simp only [resolveCursor, h]
      cases dk <;> cases sk <;> simp
    · simp [resolveCursor_hit hash s data dk sk c h]

/-! ### Normal form of one tick -/

lemma tick_eq (hash : List Nat → Nat) (bounds : Bounds) (last : MouseState)
    (s : CursorActorResponse) (inp : TickInput) :
    tick hash bounds last s inp =
      (inp.mouse_state,
        { cursors :=
            (resolveCursor hash s inp.cursor_data inp.decode_ok inp.save_ok).2.cursors
          next_cursor_id :=
            (resolveCursor hash s inp.cursor_data inp.decode_ok inp.save_ok).2.next_cursor_id
          moves :=
            (resolveCursor hash s inp.cursor_data inp.decode_ok inp.save_ok).2.moves ++
              (if inp.mouse_state.coords ≠ last.coords then
                [{ active_modifiers := []
                   cursor_id :=
                     (resolveCursor hash s inp.cursor_data inp.decode_ok inp.save_ok).1
                   process_time_ms := inp.elapsed
                   unix_time_ms := inp.unix_time
                   x := normX bounds inp.mouse_state.coords
                   y := normY bounds inp.mouse_state.coords }]
              else [])
          clicks :=
            (resolveCursor hash s inp.cursor_data inp.decode_ok inp.save_ok).2.clicks ++
              clickEventsFrom last.button_pressed
                (resolveCursor hash s inp.cursor_data inp.decode_ok inp.save_ok).1
                inp.elapsed inp.unix_time (normX bounds inp.mouse_state.coords)
                (normY bounds inp.mouse_state.coords) 0
                inp.mouse_state.button_pressed }) := by
  simp only [tick]
  by_cases h : inp.mouse_state.coords = last.coords <;> simp [h]

lemma tick_cursors (hash : List Nat → Nat) (bounds : Bounds) (last : MouseState)
    (s : CursorActorResponse) (inp : TickInput) :
    (tick hash bounds last s inp).2.cursors =
      (resolveCursor hash s inp.cursor_data inp.decode_ok inp.save_ok).2.cursors := by
  rw [tick_eq]

lemma tick_next (hash : List Nat → Nat) (bounds : Bounds) (last : MouseState)
    (s : CursorActorResponse) (inp : TickInput) :
    (tick hash bounds last s inp).2.next_cursor_id =
      (resolveCursor hash s inp.cursor_data inp.decode_ok inp.save_ok).2.next_cursor_id := by
  rw [tick_eq]

/-! ### Persistence and monotonicity -/

lemma cursorsGet_persist_resolve (hash : List Nat → Nat) (s : CursorActorResponse)
    (d : Option CursorData) (dk sk : Bool) (f : Nat) (c : Cursor)
    (h : cursorsGet s.cursors f = some c) :
    cursorsGet (resolveCursor hash s d dk sk).2.cursors f = some c := by
  rcases d with _ | data
  · exact h
  · rcases hl : cursorsGet s.cursors (hash data.image) with _ | c0
    · cases hdk : dk <;> cases hsk : sk
      · rw [resolveCursor_miss_fail hash s data _ _ hl (Or.inl rfl)]; exact h
      · rw [resolveCursor_miss_fail hash s data _ _ hl (Or.inl rfl)]; exact h
      · rw [resolveCursor_miss_fail hash s data _ _ hl (Or.inr rfl)]; exact h
      · rw [resolveCursor_assign hash s data hl]
        rw [cursorsGet_cons]
        by_cases hf : hash data.image = f
        · subst hf; rw [hl] at h; exact absurd h (by simp)
        · rw [if_neg hf]; exact h
    · rw [resolveCursor_hit hash s data _ _ c0 hl]; exact h

lemma cursorsGet_persist_tick (hash : List Nat → Nat) (bounds : Bounds)
    (last : MouseState) (s : CursorActorResponse) (inp : TickInput) (f : Nat)
    (c : Cursor) (h : cursorsGet s.cursors f = some c) :
    cursorsGet (tick hash bounds last s inp).2.cursors f = some c := by
  rw [tick_cursors]
  exact cursorsGet_persist_resolve hash s _ _ _ f c h

lemma tick_next_mono (hash : List Nat → Nat) (bounds : Bounds)
    (last : MouseState) (s : CursorActorResponse) (inp : TickInput) :
    s.next_cursor_id ≤ (tick hash bounds last s inp).2.next_cursor_id := by
  rw [tick_next]
  exact resolveCursor_next_mono hash s _ _ _

lemma cursorsGet_persist_runTicks (hash : List Nat → Nat) (bounds : Bounds)
    (inputs : List TickInput) :
    ∀ (last : MouseState) (s : CursorActorResponse) (f : Nat) (c : Cursor),
      cursorsGet s.cursors f = some c →
      cursorsGet (runTicks hash bounds last s inputs).2.cursors f = some c := by
  induction inputs with
  | nil => intro last s f c h; exact h
  | cons inp rest ih =>
    intro last s f c h
    exact ih _ _ f c (cursorsGet_persist_tick hash bounds last s inp f c h)

lemma runTicks_next_mono (hash : List Nat → Nat) (bounds : Bounds)
    (inputs : List TickInput) :
    ∀ (last : MouseState) (s : CursorActorResponse),
      s.next_cursor_id ≤ (runTicks hash bounds last s inputs).2.next_cursor_id := by
  induction inputs with
  | nil => intro last s; exact Nat.le_refl _
  | cons inp rest ih =>
    intro last s
    exact Nat.le_trans (tick_next_mono hash bounds last s inp) (ih _ _)

/-! ### States along a run -/

lemma runTicks_append (hash : List Nat → Nat) (bounds : Bounds)
    (l1 l2 : List TickInput) :
    ∀ (last : MouseState) (s : CursorActorResponse),
      runTicks hash bounds last s (l1 ++ l2) =
        runTicks hash bounds (runTicks hash bounds last s l1).1
          (runTicks hash bounds last s l1).2 l2 := by
  induction l1 with
  | nil => intro last s; rfl
  | cons inp rest ih =>
    intro last s
    simp only [List.cons_append, runTicks]
    exact ih _ _

lemma take_split (α : Type) (k d : Nat) :
    ∀ l : List α, l.take (k + d) = l.take k ++ (l.drop k).take d := by
  induction k with
  | zero => intro l; simp
  | succ k ih =>
    intro l
    rcases l with _ | ⟨a, l⟩
    · simp
    · have : k + 1 + d = (k + d) + 1 := by omega
      rw [this]
      simp only [List.take_succ_cons, List.drop_succ_cons, List.cons_append]
      rw [ih l]

/-- The actor state (last mouse sample and accumulator) after the first k
ticks of a run. -/
def stateAt (hash : List Nat → Nat) (bounds : Bounds) (init : MouseState)
    (s0 : CursorActorResponse) (inputs : List TickInput) (k : Nat) :
    MouseState × CursorActorResponse :=
  runTicks hash bounds init s0 (inputs.take k)

lemma stateAt_succ (hash : List Nat → Nat) (bounds : Bounds) (init : MouseState)
    (s0 : CursorActorResponse) (inputs : List TickInput) (k : Nat) (inp : TickInput)
    (hk : inputs.get? k = some inp) :
    stateAt hash bounds init s0 inputs (k + 1) =
      tick hash bounds (stateAt hash bounds init s0 inputs k).1
        (stateAt hash bounds init s0 inputs k).2 inp := by
  unfold stateAt
  rw [List.get?_eq_getElem?] at hk
  rw [List.take_succ, hk]
  rw [runTicks_append]
  rfl

lemma stateAt_add (hash : List Nat → Nat) (bounds : Bounds) (init : MouseState)
    (s0 : CursorActorResponse) (inputs : List TickInput) (k d : Nat) :
    stateAt hash bounds init s0 inputs (k + d) =
      runTicks hash bounds (stateAt hash bounds init s0 inputs k).1
        (stateAt hash bounds init s0 inputs k).2 ((inputs.drop k).take d) := by
  unfold stateAt
  rw [take_split, runTicks_append]

lemma stateAt_cursorsGet_persist (hash : List Nat → Nat) (bounds : Bounds)
    (init : MouseState) (s0 : CursorActorResponse) (inputs : List TickInput)
    (k m : Nat) (f : Nat) (c : Cursor) (hkm : k ≤ m)
    (h : cursorsGet (stateAt hash bounds init s0 inputs k).2.cursors f = some c) :
    cursorsGet (stateAt hash bounds init s0 inputs m).2.cursors f = some c := by
  have hm : m = k + (m - k) := by omega
  rw [hm, stateAt_add]
  exact cursorsGet_persist_runTicks hash bounds _ _ _ f c h

lemma stateAt_next_mono (hash : List Nat → Nat) (bounds : Bounds)
    (init : MouseState) (s0 : CursorActorResponse) (inputs : List TickInput)
    (k m : Nat) (hkm : k ≤ m) :
    (stateAt hash bounds init s0 inputs k).2.next_cursor_id ≤
      (stateAt hash bounds init s0 inputs m).2.next_cursor_id := by
  have hm : m = k + (m - k) := by omega
  rw [hm, stateAt_add]
  exact runTicks_next_mono hash bounds _ _ _

/-! ### resolvedId and assignsNew -/

lemma resolvedId_hit (hash : List Nat → Nat) (s : CursorActorResponse)
    (inp : TickInput) (data : CursorData) (c : Cursor)
    (hdata : inp.cursor_data = some data)
    (h : cursorsGet s.cursors (hash data.image) = some c) :
    resolvedId hash s inp = some c.id := by
  simp only [resolvedId, hdata, h]

lemma resolvedId_assign (hash : List Nat → Nat) (s : CursorActorResponse)
    (inp : TickInput) (data : CursorData)
    (hdata : inp.cursor_data = some data)
    (h : cursorsGet s.cursors (hash data.image) = none)
    (hd : inp.decode_ok = true) (hs : inp.save_ok = true) :
    resolvedId hash s inp = some s.next_cursor_id := by
  simp only [resolvedId, hdata, h, hd, hs]
  rfl

lemma assignsNew_elim (hash : List Nat → Nat) (s : CursorActorResponse)
    (inp : TickInput) (data : CursorData)
    (hdata : inp.cursor_data = some data)
    (h : assignsNew hash s inp = true) :
    cursorsGet s.cursors (hash data.image) = none ∧
      inp.decode_ok = true ∧ inp.save_ok = true := by
  simp only [assignsNew, hdata] at h
  rcases hl : cursorsGet s.cursors (hash data.image) with _ | c
  · rw [hl] at h
    exact ⟨rfl, (Bool.and_eq_true _ _).mp h⟩
  · rw [hl] at h
    exact absurd h (by simp)

/-- Links the observation function to the code: whenever a resolution
yields an identity, the cursor_id string put on the tick's events is the
decimal form of that identity. -/
lemma resolvedId_cursor_id (hash : List Nat → Nat) (s : CursorActorResponse)
    (inp : TickInput) (i : Nat)
    (h : resolvedId hash s inp = some i) :
    (resolveCursor hash s inp.cursor_data inp.decode_ok inp.save_ok).1 = toString i := by
  rcases hdata : inp.cursor_data with _ | data
  · simp only [resolvedId, hdata] at h
    exact absurd h (by simp)
  · simp only [resolvedId, hdata] at h
    rcases hl : cursorsGet s.cursors (hash data.image) with _ | c
    · rw [hl] at h
      rcases hds : inp.decode_ok && inp.save_ok with _ | _
      · rw [hds] at h; exact absurd h (by simp)
      · rw [hds] at h
        have hd := (Bool.and_eq_true _ _).mp hds
        have hi : s.next_cursor_id = i := by simpa using h
        rw [hd.1, hd.2, resolveCursor_assign hash s data hl, hi]
    · rw [hl] at h
      have hi : c.id = i := by simpa using h
      rw [resolveCursor_hit hash s data _ _ c hl, hi]

lemma tick_cursorsGet_of_resolvedId (hash : List Nat → Nat) (bounds : Bounds)
    (last : MouseState) (s : CursorActorResponse) (inp : TickInput)
    (data : CursorData) (i : Nat)
    (hdata : inp.cursor_data = some data)
    (h : resolvedId hash s inp = some i) :
    ∃ c, cursorsGet (tick hash bounds last s inp).2.cursors (hash data.image) = some c ∧
      c.id = i := by
  simp only [resolvedId, hdata] at h
  rcases hl : cursorsGet s.cursors (hash data.image) with _ | c
  · rw [hl] at h
    rcases hds : inp.decode_ok && inp.save_ok with _ | _
    · rw [hds] at h; exact absurd h (by simp)
    · rw [hds] at h
      have hd := (Bool.and_eq_true _ _).mp hds
      have hi : s.next_cursor_id = i := by simpa using h
      refine ⟨⟨cursorFileName (toString s.next_cursor_id), s.next_cursor_id,
        data.hotspot⟩, ?_, hi⟩
      rw [tick_cursors, hdata, hd.1, hd.2, resolveCursor_assign hash s data hl,
        cursorsGet_cons]
      simp
  · rw [hl] at h
    have hi : c.id = i := by simpa using h
    exact ⟨c, cursorsGet_persist_tick hash bounds last s inp _ c hl, hi⟩

lemma tick_next_of_not_assign (hash : List Nat → Nat) (bounds : Bounds)
    (last : MouseState) (s : CursorActorResponse) (inp : TickInput)
    (h : assignsNew hash s inp = false) :
    (tick hash bounds last s inp).2.next_cursor_id = s.next_cursor_id := by
  rw [tick_next]
  rcases hdata : inp.cursor_data with _ | data
  · rw [resolveCursor_none]
  · simp only [assignsNew, hdata] at h
    rcases hl : cursorsGet s.cursors (hash data.image) with _ | c
    · rw [hl] at h
      rcases hdk : inp.decode_ok with _ | _
      · rw [resolveCursor_miss_fail hash s data _ _ hl (Or.inl rfl)]
      · rw [hdk] at h
        have hsk : inp.save_ok = false := by simpa using h
        rw [hsk, resolveCursor_miss_fail hash s data _ _ hl (Or.inr rfl)]
    · rw [resolveCursor_hit hash s data _ _ c hl]

lemma tick_next_of_assign (hash : List Nat → Nat) (bounds : Bounds)
    (last : MouseState) (s : CursorActorResponse) (inp : TickInput)
    (h : assignsNew hash s inp = true) :
    (tick hash bounds last s inp).2.next_cursor_id = s.next_cursor_id + 1 := by
  rw [tick_next]
  rcases hdata : inp.cursor_data with _ | data
  · simp only [assignsNew, hdata] at h
    exact absurd h (by simp)
  · have he := assignsNew_elim hash s inp data hdata h
    rw [he.2.1, he.2.2, resolveCursor_assign hash s data he.1]

/-! ### The cache invariant -/

/-- Every cached fingerprint maps to a Cursor whose identity is strictly
below the next identity to be assigned. -/
def cacheInv (s : CursorActorResponse) : Prop :=
  ∀ p ∈ s.cursors, p.2.id < s.next_cursor_id

lemma resolveCursor_cacheInv (hash : List Nat → Nat) (s : CursorActorResponse)
    (d : Option CursorData) (dk sk : Bool) (h : cacheInv s) :
    cacheInv (resolveCursor hash s d dk sk).2 := by
  rcases d with _ | data
  · exact h
  · rcases hl : cursorsGet s.cursors (hash data.image) with _ | c
    · cases hdk : dk <;> cases hsk : sk
      · rw [resolveCursor_miss_fail hash s data _ _ hl (Or.inl rfl)]; exact h
      · rw [resolveCursor_miss_fail hash s data _ _ hl (Or.inl rfl)]; exact h
      · rw [resolveCursor_miss_fail hash s data _ _ hl (Or.inr rfl)]; exact h
      · rw [resolveCursor_assign hash s data hl]
        intro p hp
        rcases List.mem_cons.mp hp with hp | hp
        · subst hp; exact Nat.lt_succ_self _
        · exact Nat.lt_trans (h p hp) (Nat.lt_succ_self _)
    · rw [resolveCursor_hit hash s data _ _ c hl]; exact h

lemma tick_cacheInv (hash : List Nat → Nat) (bounds : Bounds)
    (last : MouseState) (s : CursorActorResponse) (inp : TickInput)
    (h : cacheInv s) : cacheInv (tick hash bounds last s inp).2 := by
  have hc := tick_cursors hash bounds last s inp
  have hn := tick_next hash bounds last s inp
  intro p hp
  rw [hn]
  exact resolveCursor_cacheInv hash s _ _ _ h p (by rw [← hc]; exact hp)

/-! ### Unfolding equations for clickEventsFrom -/

lemma clickEventsFrom_nil (prev : List Bool) (cid : String) (el ut x y : ℚ)
    (num : Nat) : clickEventsFrom prev cid el ut x y num [] = [] := rfl

lemma clickEventsFrom_cons_none (prev : List Bool) (cid : String)
    (el ut x y : ℚ) (num : Nat) (c : Bool) (rest : List Bool)
    (h : prev.get? num = none) :
    clickEventsFrom prev cid el ut x y num (c :: rest) =
      clickEventsFrom prev cid el ut x y (num + 1) rest := by
  simp only [clickEventsFrom, h]

lemma clickEventsFrom_cons_skip (prev : List Bool) (cid : String)
    (el ut x y : ℚ) (num : Nat) (c q : Bool) (rest : List Bool)
    (h : prev.get? num = some q) (hc : c = q) :
    clickEventsFrom prev cid el ut x y num (c :: rest) =
      clickEventsFrom prev cid el ut x y (num + 1) rest := by
  simp only [clickEventsFrom, h]
  rw [if_pos hc]

lemma clickEventsFrom_cons_emit (prev : List Bool) (cid : String)
    (el ut x y : ℚ) (num : Nat) (c q : Bool) (rest : List Bool)
    (h : prev.get? num = some q) (hc : ¬c = q) :
    clickEventsFrom prev cid el ut x y num (c :: rest) =
      mkClickEvent c (num % 256) cid el ut x y ::
        clickEventsFrom prev cid el ut x y (num + 1) rest := by
  simp only [clickEventsFrom, h]
  rw [if_neg hc]

lemma clickEventsFrom_cursor_num_bound (prev : List Bool) (cid : String)
    (el ut x y : ℚ) :
    ∀ (cur : List Bool) (n0 : Nat), n0 + cur.length ≤ 256 →
      ∀ e ∈ clickEventsFrom prev cid el ut x y n0 cur,
        n0 ≤ e.cursor_num ∧ e.cursor_num < n0 + cur.length := by
  intro cur
  induction cur with
  | nil =>
    intro n0 h e he
    simp [clickEventsFrom] at he
  | cons c rest ih =>
    intro n0 h e he
    simp only [List.length_cons] at h
    have hn0 : n0 % 256 = n0 := Nat.mod_eq_of_lt (by omega)
    simp only [List.length_cons]
    rcases hq : prev.get? n0 with _ | q
    · rw [clickEventsFrom_cons_none prev cid el ut x y n0 c rest hq] at he
      have := ih (n0 + 1) (by omega) e he
      omega
    · by_cases hcq : c = q
      · rw [clickEventsFrom_cons_skip prev cid el ut x y n0 c q rest hq hcq] at he
        have := ih (n0 + 1) (by omega) e he
        omega
      · rw [clickEventsFrom_cons_emit prev cid el ut x y n0 c q rest hq hcq] at he
        rcases List.mem_cons.mp he with he | he
        · subst he
          simp only [mkClickEvent, hn0]
          omega
        · have := ih (n0 + 1) (by omega) e he
          omega

lemma clickEventsFrom_filter (prev : List Bool) (cid : String)
    (el ut x y : ℚ) (m : Nat) :
    ∀ (cur : List Bool) (n0 : Nat), n0 + cur.length ≤ 256 →
      (clickEventsFrom prev cid el ut x y n0 cur).filter
          (fun e => e.cursor_num == m) =
        if n0 ≤ m ∧ m - n0 < cur.length then
          match cur.get? (m - n0), prev.get? m with
          | some p, some q =>
            if p = q then []
            else [mkClickEvent p m cid el ut x y]
          | some _, none => []
          | none, _ => []
        else [] := by
  intro cur
  induction cur with
  | nil =>
    intro n0 h
    simp [clickEventsFrom]
  | cons c rest ih =>
    intro n0 h
    simp only [List.length_cons] at h
    have hn0 : n0 % 256 = n0 := Nat.mod_eq_of_lt (by omega)
    have htail := ih (n0 + 1) (by omega)
    have hbound := clickEventsFrom_cursor_num_bound prev cid el ut x y rest
      (n0 + 1) (by omega)
    have htail_nm : (clickEventsFrom prev cid el ut x y (n0 + 1) rest).filter
        (fun e => e.cursor_num == n0) = [] := by
      rw [List.filter_eq_nil_iff]
      intro e he
      have := hbound e he
      simp only [beq_iff_eq]
      omega
    rcases hq : prev.get? n0 with _ | q
    · rw [clickEventsFrom_cons_none prev cid el ut x y n0 c rest hq]
      by_cases hm : m = n0
      · subst hm
        rw [htail_nm, if_pos (by simp only [List.length_cons]; omega),
          Nat.sub_self, List.get?_cons_zero, hq]
      · rw [htail]
        by_cases hm2 : n0 ≤ m ∧ m - n0 < rest.length + 1
        · rw [if_pos (by omega : n0 + 1 ≤ m ∧ m - (n0 + 1) < rest.length),
            if_pos (by simp only [List.length_cons]; omega)]
          have hidx : m - n0 = (m - (n0 + 1)) + 1 := by omega
          rw [hidx, List.get?_cons_succ]
        · rw [if_neg (by omega : ¬(n0 + 1 ≤ m ∧ m - (n0 + 1) < rest.length)),
            if_neg (by simp only [List.length_cons]; omega)]
    · by_cases hcq : c = q
      · rw [clickEventsFrom_cons_skip prev cid el ut x y n0 c q rest hq hcq]
        by_cases hm : m = n0
        · subst hm
          rw [htail_nm, if_pos (by simp only [List.length_cons]; omega),
            Nat.sub_self, List.get?_cons_zero, hq]
          simp [hcq]
        · rw [htail]
          by_cases hm2 : n0 ≤ m ∧ m - n0 < rest.length + 1
          · rw [if_pos (by omega : n0 + 1 ≤ m ∧ m - (n0 + 1) < rest.length),
              if_pos (by simp only [List.length_cons]; omega)]
            have hidx : m - n0 = (m - (n0 + 1)) + 1 := by omega
            rw [hidx, List.get?_cons_succ]
          · rw [if_neg (by omega : ¬(n0 + 1 ≤ m ∧ m - (n0 + 1) < rest.length)),
              if_neg (by simp only [List.length_cons]; omega)]
      · rw [clickEventsFrom_cons_emit prev cid el ut x y n0 c q rest hq hcq,
          List.filter_cons]
        by_cases hm : m = n0
        · subst hm
          have hyes : ((mkClickEvent c (m % 256) cid el ut x y).cursor_num == m)
              = true := by
            simp [mkClickEvent, hn0]
          simp only [hyes, if_true]
          rw [htail_nm, hn0, if_pos (by simp only [List.length_cons]; omega),
            Nat.sub_self, List.get?_cons_zero, hq]
          simp [hcq]
        · have hno : ((mkClickEvent c (n0 % 256) cid el ut x y).cursor_num == m)
              = false := by
            simp [mkClickEvent, hn0]
            omega
          simp only [hno, Bool.false_eq_true, if_false]
          rw [htail]
          by_cases hm2 : n0 ≤ m ∧ m - n0 < rest.length + 1
          · rw [if_pos (by omega : n0 + 1 ≤ m ∧ m - (n0 + 1) < rest.length),
              if_pos (by simp only [List.length_cons]; omega)]
            have hidx : m - n0 = (m - (n0 + 1)) + 1 := by omega
            rw [hidx, List.get?_cons_succ]
          · rw [if_neg (by omega : ¬(n0 + 1 ≤ m ∧ m - (n0 + 1) < rest.length)),
              if_neg (by simp only [List.length_cons]; omega)]

/-- All events produced by the button loop of one tick share the tick's
cursor_id, timestamps and normalized position, and carry no modifiers. -/
lemma clickEventsFrom_fields (prev : List Bool) (cid : String)
    (el ut x y : ℚ) :
    ∀ (cur : List Bool) (n0 : Nat) (e : CursorClickEvent),
      e ∈ clickEventsFrom prev cid el ut x y n0 cur →
      e.active_modifiers = [] ∧ e.cursor_id = cid ∧ e.process_time_ms = el ∧
        e.unix_time_ms = ut ∧ e.x = x ∧ e.y = y := by
  intro cur
  induction cur with
  | nil =>
    intro n0 e he
    simp [clickEventsFrom] at he
  | cons c rest ih =>
    intro n0 e he
    rcases hq : prev.get? n0 with _ | q
    · rw [clickEventsFrom_cons_none prev cid el ut x y n0 c rest hq] at he
      exact ih (n0 + 1) e he
    · by_cases hcq : c = q
      · rw [clickEventsFrom_cons_skip prev cid el ut x y n0 c q rest hq hcq] at he
        exact ih (n0 + 1) e he
      · rw [clickEventsFrom_cons_emit prev cid el ut x y n0 c q rest hq hcq] at he
        rcases List.mem_cons.mp he with he | he
        · subst he
          exact ⟨rfl, rfl, rfl, rfl, rfl, rfl⟩
        · exact ih (n0 + 1) e he

/-! ### The loop and the stop signal -/

lemma runLoop_cacheInv (hash : List Nat → Nat) (bounds : Bounds)
    (steps : List LoopStep) :
    ∀ (last : MouseState) (s : CursorActorResponse), cacheInv s →
      cacheInv (runLoop hash bounds last s steps) ∧
        s.next_cursor_id ≤ (runLoop hash bounds last s steps).next_cursor_id := by
  induction steps with
  | nil => intro last s h; exact ⟨h, Nat.le_refl _⟩
  | cons step rest ih =>
    intro last s h
    simp only [runLoop]
    by_cases hs : step.stop
    · rw [if_pos hs]
      exact ⟨h, Nat.le_refl _⟩
    · rw [if_neg hs]
      refine ⟨(ih _ _ (tick_cacheInv hash bounds last s step.input h)).1, ?_⟩
      exact Nat.le_trans (tick_next_mono hash bounds last s step.input)
        (ih _ _ (tick_cacheInv hash bounds last s step.input h)).2

/-! ### Filesystem effect trace (for the spawn/setup claims) -/

/-- A filesystem effect of the actor task: the create_dir_all call at
spawn, or an attempted cursor-image save. -/
inductive FsEffect where
  | createDir : FsEffect
  | writeFile : String → FsEffect
deriving DecidableEq, Repr

/-- The disk write attempted by one tick: a save is attempted exactly
when capture produced bytes, the fingerprint is fresh and decoding
succeeded (cursor.rs line 98), whether or not the save itself
succeeds. -/
def tickWrites (hash : List Nat → Nat) (s : CursorActorResponse)
    (inp : TickInput) : List String :=
  match inp.cursor_data with
  | none => []
  | some data =>
    match cursorsGet s.cursors (hash data.image) with
    | some _ => []
    | none =>
      if inp.decode_ok then [cursorFileName (toString s.next_cursor_id)] else []

/-- The write effects of the sampling loop, in order. -/
def loopEffects (hash : List Nat → Nat) (bounds : Bounds) :
    MouseState → CursorActorResponse → List LoopStep → List FsEffect
  | _, _, [] => []
  | last, s, step :: rest =>
    if step.stop then []
    else
      let p := tick hash bounds last s step.input
      (tickWrites hash s step.input).map FsEffect.writeFile ++
        loopEffects hash bounds p.1 p.2 rest

/-- The filesystem effects of the spawned actor task, in order: the
directory creation always comes first (cursor.rs line 71 precedes the
loop); if it fails the unwrap aborts the task and nothing else runs. -/
def spawnEffects (hash : List Nat → Nat) (bounds : Bounds)
    (initMouse : MouseState) (prev_cursors : Cursors) (next_cursor_id : Nat)
    (dir_ok : Bool) (steps : List LoopStep) : List FsEffect :=
  FsEffect.createDir ::
    (if dir_ok then
      loopEffects hash bounds initMouse
        { cursors := prev_cursors
          next_cursor_id := next_cursor_id
          moves := []
          clicks := [] } steps
    else [])

/-! ### Claim theorems -/

/-- C5: on every tick, a CursorMoveEvent is appended exactly when the
pointer coordinates differ from the previous tick's coordinates, and the
one appended event carries x = (px - bounds.x)/bounds.width and
y = (py - bounds.y)/bounds.height, values not clamped to the unit
interval; an unchanged position appends nothing. -/
theorem move_event_triggering (hash : List Nat → Nat) (bounds : Bounds)
    (last : MouseState) (s : CursorActorResponse) (inp : TickInput) :
    (tick hash bounds last s inp).2.moves =
      s.moves ++
        (if inp.mouse_state.coords ≠ last.coords then
          [{ active_modifiers := []
             cursor_id :=
               (resolveCursor hash s inp.cursor_data inp.decode_ok inp.save_ok).1
             process_time_ms := inp.elapsed
             unix_time_ms := inp.unix_time
             x := ((inp.mouse_state.coords.1 : ℚ) - bounds.x) / bounds.width
             y := ((inp.mouse_state.coords.2 : ℚ) - bounds.y) / bounds.height }]
        else []) := by
  rw [tick_eq]
  simp only [resolveCursor_moves, normX, normY]

/-- C8: the final accumulator of the loop is exactly the fold of the tick
body over the ticks scheduled strictly before the first observation of
the stop flag: once stop is observed at the top of an iteration, no
further sampling, event append or cache mutation contributes, and the
resulting accumulator is the one handed to the awaiting stop caller. -/
theorem graceful_stop (hash : List Nat → Nat) (bounds : Bounds)
    (last : MouseState) (s : CursorActorResponse) (steps : List LoopStep) :
    runLoop hash bounds last s steps =
      (runTicks hash bounds last s
        ((steps.takeWhile (fun st => !st.stop)).map LoopStep.input)).2 := by
  induction steps generalizing last s with
  | nil => rfl
  | cons step rest ih =>
    simp only [runLoop, List.takeWhile_cons]
    by_cases hs : step.stop = true
    · simp [hs, runTicks]
    · have hs2 : step.stop = false := by simpa using hs
      simp only [hs2, Bool.not_false, if_true, if_false, List.map_cons, runTicks]
      exact ih _ _

/-- C9: the directory creation is the first filesystem effect of the
spawned task, before any bitmap write; if it fails, the spawn produces no
accumulator, no tick executes and no write is attempted. -/
theorem directory_creation (hash : List Nat → Nat) (bounds : Bounds)
    (initMouse : MouseState) (prev_cursors : Cursors) (next_cursor_id : Nat)
    (dir_ok : Bool) (steps : List LoopStep) :
    (spawnEffects hash bounds initMouse prev_cursors next_cursor_id dir_ok
        steps).head? = some FsEffect.createDir ∧
    spawn_cursor_recorder hash bounds initMouse prev_cursors next_cursor_id
        false steps = none ∧
    spawnEffects hash bounds initMouse prev_cursors next_cursor_id false steps =
      [FsEffect.createDir] := by
  refine ⟨rfl, ?_, ?_⟩ <;> simp [spawn_cursor_recorder, spawnEffects]

/-- C1 (amended): on a tick whose captured bytes have a fresh fingerprint
and fail to decode, no identity is consumed (resolution yields no
identity), next_cursor_id is unchanged, no cache entry is inserted, and
every event emitted on that tick carries the decimal string of the
current next_cursor_id as its cursor_id (the code fixes that provisional
string before decoding and does not fall back to "default"). -/
theorem decode_failure_fallback (hash : List Nat → Nat) (bounds : Bounds)
    (last : MouseState) (s : CursorActorResponse) (inp : TickInput)
    (data : CursorData)
    (hdata : inp.cursor_data = some data)
    (hmiss : cursorsGet s.cursors (hash data.image) = none)
    (hdec : inp.decode_ok = false) :
    (tick hash bounds last s inp).2.cursors = s.cursors ∧
    (tick hash bounds last s inp).2.next_cursor_id = s.next_cursor_id ∧
    resolvedId hash s inp = none ∧
    ((tick hash bounds last s inp).2.moves.drop s.moves.length).all
      (fun e => e.cursor_id == toString s.next_cursor_id) = true ∧
    ((tick hash bounds last s inp).2.clicks.drop s.clicks.length).all
      (fun e => e.cursor_id == toString s.next_cursor_id) = true := by
  have hres : resolveCursor hash s inp.cursor_data inp.decode_ok inp.save_ok =
      (toString s.next_cursor_id, s) := by
    rw [hdata]
    exact resolveCursor_miss_fail hash s data _ _ hmiss (Or.inl hdec)
  refine ⟨?_, ?_, ?_, ?_, ?_⟩
  · rw [tick_cursors, hres]
  · rw [tick_next, hres]
  · simp only [resolvedId, hdata, hmiss, hdec]
    simp
  · rw [tick_eq]
    simp only [hres, List.drop_left]
    by_cases hc : inp.mouse_state.coords ≠ last.coords <;> simp [hc]
  · rw [tick_eq]
    simp only [hres, List.drop_left, List.all_eq_true]
    intro e he
    have hf := clickEventsFrom_fields last.button_pressed _ _ _ _ _
      inp.mouse_state.button_pressed 0 e he
    simp [hf.2.1]

/-- C1 counterexample: a concrete tick with a fresh fingerprint and a
failed decode emits a move event whose cursor_id is "0", not "default",
refuting the claim that every event on such a tick carries "default". -/
theorem decode_failure_counterexample :
    ((tick (fun _ => 0) ⟨0, 0, 1, 1⟩ ⟨(0, 0), [false]⟩ ⟨[], 0, [], []⟩
        ⟨⟨(1, 1), [false]⟩, 0, 0, some ⟨[1, 2], ⟨0, 0⟩⟩, false, true⟩).2.moves.map
      (fun e => e.cursor_id)) = ["0"] ∧ "0" ≠ "default" := by
  exact ⟨rfl, by decide⟩

/-- C1 witness: the amended theorem applied at the counterexample input. -/
theorem decode_failure_fallback_witness :
    ((⟨⟨(1, 1), [false]⟩, 0, 0, some ⟨[1, 2], ⟨0, 0⟩⟩, false, true⟩ :
        TickInput).cursor_data = some ⟨[1, 2], ⟨0, 0⟩⟩) ∧
    (tick (fun _ => 0) ⟨0, 0, 1, 1⟩ ⟨(0, 0), [false]⟩ ⟨[], 0, [], []⟩
        ⟨⟨(1, 1), [false]⟩, 0, 0, some ⟨[1, 2], ⟨0, 0⟩⟩, false, true⟩).2.cursors = [] ∧
    (tick (fun _ => 0) ⟨0, 0, 1, 1⟩ ⟨(0, 0), [false]⟩ ⟨[], 0, [], []⟩
        ⟨⟨(1, 1), [false]⟩, 0, 0, some ⟨[1, 2], ⟨0, 0⟩⟩, false, true⟩).2.next_cursor_id = 0 ∧
    resolvedId (fun _ => 0) ⟨[], 0, [], []⟩
      ⟨⟨(1, 1), [false]⟩, 0, 0, some ⟨[1, 2], ⟨0, 0⟩⟩, false, true⟩ = none := by
  have h := decode_failure_fallback (fun _ => 0) ⟨0, 0, 1, 1⟩ ⟨(0, 0), [false]⟩
    ⟨[], 0, [], []⟩ ⟨⟨(1, 1), [false]⟩, 0, 0, some ⟨[1, 2], ⟨0, 0⟩⟩, false, true⟩
    ⟨[1, 2], ⟨0, 0⟩⟩ rfl rfl rfl
  exact ⟨rfl, h.1, h.2.1, h.2.2.1⟩

/-- C2 (amended): on a tick whose captured bytes have a fresh
fingerprint, decode successfully, but whose disk save fails,
next_cursor_id is not advanced, no cache entry is inserted, resolution
yields no identity, and the events emitted on that tick carry the decimal
string of the current next_cursor_id as cursor_id, not "default". -/
theorem save_failure_fallback (hash : List Nat → Nat) (bounds : Bounds)
    (last : MouseState) (s : CursorActorResponse) (inp : TickInput)
    (data : CursorData)
    (hdata : inp.cursor_data = some data)
    (hmiss : cursorsGet s.cursors (hash data.image) = none)
    (hdec : inp.decode_ok = true) (hsave : inp.save_ok = false) :
    (tick hash bounds last s inp).2.cursors = s.cursors ∧
    (tick hash bounds last s inp).2.next_cursor_id = s.next_cursor_id ∧
    resolvedId hash s inp = none ∧
    ((tick hash bounds last s inp).2.moves.drop s.moves.length).all
      (fun e => e.cursor_id == toString s.next_cursor_id) = true ∧
    ((tick hash bounds last s inp).2.clicks.drop s.clicks.length).all
      (fun e => e.cursor_id == toString s.next_cursor_id) = true := by
  have hres : resolveCursor hash s inp.cursor_data inp.decode_ok inp.save_ok =
      (toString s.next_cursor_id, s) := by
    rw [hdata]
    exact resolveCursor_miss_fail hash s data _ _ hmiss (Or.inr hsave)
  refine ⟨?_, ?_, ?_, ?_, ?_⟩
  · rw [tick_cursors, hres]
  · rw [tick_next, hres]
  · simp only [resolvedId, hmiss, hdata, hsave]
    simp
  · rw [tick_eq]
    simp only [hres, List.drop_left]
    by_cases hc : inp.mouse_state.coords ≠ last.coords <;> simp [hc]
  · rw [tick_eq]
    simp only [hres, List.drop_left, List.all_eq_true]
    intro e he
    have hf := clickEventsFrom_fields last.button_pressed _ _ _ _ _
      inp.mouse_state.button_pressed 0 e he
    simp [hf.2.1]

/-- C2 counterexample: a concrete tick that decodes successfully but
fails to save emits a move event whose cursor_id is "0", not "default". -/
theorem save_failure_counterexample :
    ((tick (fun _ => 0) ⟨0, 0, 1, 1⟩ ⟨(0, 0), [false]⟩ ⟨[], 0, [], []⟩
        ⟨⟨(1, 1), [false]⟩, 0, 0, some ⟨[1, 2], ⟨0, 0⟩⟩, true, false⟩).2.moves.map
      (fun e => e.cursor_id)) = ["0"] ∧ "0" ≠ "default" := by
  exact ⟨rfl, by decide⟩

/-- C2 witness: the amended theorem applied at the counterexample input. -/
theorem save_failure_fallback_witness :
    ((⟨⟨(1, 1), [false]⟩, 0, 0, some ⟨[1, 2], ⟨0, 0⟩⟩, true, false⟩ :
        TickInput).cursor_data = some ⟨[1, 2], ⟨0, 0⟩⟩) ∧
    (tick (fun _ => 0) ⟨0, 0, 1, 1⟩ ⟨(0, 0), [false]⟩ ⟨[], 0, [], []⟩
        ⟨⟨(1, 1), [false]⟩, 0, 0, some ⟨[1, 2], ⟨0, 0⟩⟩, true, false⟩).2.cursors = [] ∧
    (tick (fun _ => 0) ⟨0, 0, 1, 1⟩ ⟨(0, 0), [false]⟩ ⟨[], 0, [], []⟩
        ⟨⟨(1, 1), [false]⟩, 0, 0, some ⟨[1, 2], ⟨0, 0⟩⟩, true, false⟩).2.next_cursor_id = 0 ∧
    resolvedId (fun _ => 0) ⟨[], 0, [], []⟩
      ⟨⟨(1, 1), [false]⟩, 0, 0, some ⟨[1, 2], ⟨0, 0⟩⟩, true, false⟩ = none := by
  have h := save_failure_fallback (fun _ => 0) ⟨0, 0, 1, 1⟩ ⟨(0, 0), [false]⟩
    ⟨[], 0, [], []⟩ ⟨⟨(1, 1), [false]⟩, 0, 0, some ⟨[1, 2], ⟨0, 0⟩⟩, true, false⟩
    ⟨[1, 2], ⟨0, 0⟩⟩ rfl rfl rfl rfl
  exact ⟨rfl, h.1, h.2.1, h.2.2.1⟩

/-- C3: assuming the seeded cache satisfies the invariant at spawn, after
any sequence of loop iterations every cached fingerprint maps to a Cursor
whose identity is strictly less than next_cursor_id, and next_cursor_id
never decreases. -/
theorem cache_invariant_preserved (hash : List Nat → Nat) (bounds : Bounds)
    (last : MouseState) (s : CursorActorResponse) (steps : List LoopStep)
    (h : cacheInv s) :
    cacheInv (runLoop hash bounds last s steps) ∧
      s.next_cursor_id ≤ (runLoop hash bounds last s steps).next_cursor_id :=
  runLoop_cacheInv hash bounds steps last s h

/-- C3 witness: the invariant theorem applied to a run of one capturing
tick from the empty seeded cache. -/
theorem cache_invariant_preserved_witness :
    cacheInv ⟨[], 0, [], []⟩ ∧
      (cacheInv (runLoop (fun _ => 0) ⟨0, 0, 1, 1⟩ ⟨(0, 0), []⟩ ⟨[], 0, [], []⟩
          [⟨false, ⟨⟨(2, 3), []⟩, 0, 0, some ⟨[9], ⟨0, 0⟩⟩, true, true⟩⟩]) ∧
        0 ≤ (runLoop (fun _ => 0) ⟨0, 0, 1, 1⟩ ⟨(0, 0), []⟩ ⟨[], 0, [], []⟩
          [⟨false, ⟨⟨(2, 3), []⟩, 0, 0, some ⟨[9], ⟨0, 0⟩⟩, true, true⟩⟩]).next_cursor_id) := by
  have h0 : cacheInv (⟨[], 0, [], []⟩ : CursorActorResponse) := by
    intro p hp
    exact absurd hp (List.not_mem_nil p)
  exact ⟨h0, cache_invariant_preserved (fun _ => 0) ⟨0, 0, 1, 1⟩ ⟨(0, 0), []⟩
    ⟨[], 0, [], []⟩ [⟨false, ⟨⟨(2, 3), []⟩, 0, 0, some ⟨[9], ⟨0, 0⟩⟩, true, true⟩⟩] h0⟩

/-- C6: the events appended by the button loop of one tick are exactly
clickEventsFrom, and for any button index m (within the u8 range forced
by the length bound), exactly one event with cursor_num = m is appended
when m is present in both samples with differing pressed state - its down
field being the current pressed state - and no event with cursor_num = m
is appended when m is absent from either sample or unchanged. -/
theorem click_event_triggering (hash : List Nat → Nat) (bounds : Bounds)
    (last : MouseState) (s : CursorActorResponse) (inp : TickInput) (m : Nat)
    (h : inp.mouse_state.button_pressed.length ≤ 256) :
    (tick hash bounds last s inp).2.clicks =
      s.clicks ++
        clickEventsFrom last.button_pressed
          (resolveCursor hash s inp.cursor_data inp.decode_ok inp.save_ok).1
          inp.elapsed inp.unix_time (normX bounds inp.mouse_state.coords)
          (normY bounds inp.mouse_state.coords) 0
          inp.mouse_state.button_pressed ∧
    (clickEventsFrom last.button_pressed
        (resolveCursor hash s inp.cursor_data inp.decode_ok inp.save_ok).1
        inp.elapsed inp.unix_time (normX bounds inp.mouse_state.coords)
        (normY bounds inp.mouse_state.coords) 0
        inp.mouse_state.button_pressed).filter (fun e => e.cursor_num == m) =
      (match inp.mouse_state.button_pressed.get? m, last.button_pressed.get? m with
        | some p, some q =>
          if p = q then []
          else [mkClickEvent p m
            (resolveCursor hash s inp.cursor_data inp.decode_ok inp.save_ok).1
            inp.elapsed inp.unix_time (normX bounds inp.mouse_state.coords)
            (normY bounds inp.mouse_state.coords)]
        | some _, none => []
        | none, _ => []) := by
  constructor
  · rw [tick_eq]
    simp only [resolveCursor_clicks]
  · rw [clickEventsFrom_filter last.button_pressed _ _ _ _ _ m
      inp.mouse_state.button_pressed 0 (by simpa using h)]
    by_cases hm : m < inp.mouse_state.button_pressed.length
    · rw [if_pos (by omega : 0 ≤ m ∧ m - 0 < inp.mouse_state.button_pressed.length),
        Nat.sub_zero]
    · rw [if_neg (by omega : ¬(0 ≤ m ∧ m - 0 < inp.mouse_state.button_pressed.length))]
      have hnone : inp.mouse_state.button_pressed.get? m = none := by
        rw [List.get?_eq_getElem?]
        exact List.getElem?_eq_none (by omega)
      rw [hnone]

/-- C6 witness: the click characterization applied to a concrete tick
where button 0 goes from released to pressed. -/
theorem click_event_triggering_witness :
    ([true, false] : List Bool).length ≤ 256 ∧
    ((tick (fun _ => 0) ⟨0, 0, 1, 1⟩ ⟨(0, 0), [false, false]⟩ ⟨[], 0, [], []⟩
        ⟨⟨(0, 0), [true, false]⟩, 0, 0, none, false, false⟩).2.clicks =
      [] ++ clickEventsFrom [false, false] "default" 0 0
        (normX ⟨0, 0, 1, 1⟩ (0, 0)) (normY ⟨0, 0, 1, 1⟩ (0, 0)) 0
        [true, false] ∧
    (clickEventsFrom [false, false] "default" 0 0
        (normX ⟨0, 0, 1, 1⟩ (0, 0)) (normY ⟨0, 0, 1, 1⟩ (0, 0)) 0
        [true, false]).filter (fun e => e.cursor_num == 0) =
      [mkClickEvent true 0 "default" 0 0
        (normX ⟨0, 0, 1, 1⟩ (0, 0)) (normY ⟨0, 0, 1, 1⟩ (0, 0))]) :=
  ⟨by decide, click_event_triggering (fun _ => 0) ⟨0, 0, 1, 1⟩
    ⟨(0, 0), [false, false]⟩ ⟨[], 0, [], []⟩
    ⟨⟨(0, 0), [true, false]⟩, 0, 0, none, false, false⟩ 0 (by decide)⟩

lemma stateAt_next_of_no_assign (hash : List Nat → Nat) (bounds : Bounds)
    (init : MouseState) (s0 : CursorActorResponse) (inputs : List TickInput)
    (j : Nat)
    (hprev : ∀ k inp, k < j → inputs.get? k = some inp →
      assignsNew hash (stateAt hash bounds init s0 inputs k).2 inp = false) :
    (stateAt hash bounds init s0 inputs j).2.next_cursor_id =
      s0.next_cursor_id := by
  induction j with
  | zero => rfl
  | succ j ih =>
    rcases hj : inputs.get? j with _ | inp
    · have htake : inputs.take (j + 1) = inputs.take j := by
        rw [List.get?_eq_getElem?] at hj
        rw [List.take_succ, hj]
        simp
      unfold stateAt
      rw [htake]
      exact ih (fun k inp hk hg => hprev k inp (by omega) hg)
    · rw [stateAt_succ hash bounds init s0 inputs j inp hj,
        tick_next_of_not_assign hash bounds _ _ inp (hprev j inp (by omega) hj)]
      exact ih (fun k inp2 hk hg => hprev k inp2 (by omega) hg)

/-- C7: spawning with a prior cache of N entries and next identity N,
the first tick that newly assigns an identity (every earlier tick being a
miss, a hit or a failure) resolves to identity N - not 0 - and inserts a
cache entry whose file name is "cursor_N.png", derived from N. -/
theorem seeded_continuity (hash : List Nat → Nat) (bounds : Bounds)
    (init : MouseState) (prev : Cursors) (N : Nat) (inputs : List TickInput)
    (j : Nat) (inpj : TickInput) (dj : CursorData)
    (hlen : prev.length = N)
    (hprev : ∀ k inp, k < j → inputs.get? k = some inp →
      assignsNew hash (stateAt hash bounds init ⟨prev, N, [], []⟩ inputs k).2 inp
        = false)
    (hgj : inputs.get? j = some inpj)
    (hdj : inpj.cursor_data = some dj)
    (hassign : assignsNew hash
      (stateAt hash bounds init ⟨prev, N, [], []⟩ inputs j).2 inpj = true) :
    resolvedId hash (stateAt hash bounds init ⟨prev, N, [], []⟩ inputs j).2 inpj
      = some N ∧
    cursorsGet
        (stateAt hash bounds init ⟨prev, N, [], []⟩ inputs (j + 1)).2.cursors
        (hash dj.image) =
      some ⟨cursorFileName (toString N), N, dj.hotspot⟩ := by
  have hnext : (stateAt hash bounds init ⟨prev, N, [], []⟩ inputs j).2.next_cursor_id
      = N :=
    stateAt_next_of_no_assign hash bounds init ⟨prev, N, [], []⟩ inputs j hprev
  have he := assignsNew_elim hash _ inpj dj hdj hassign
  constructor
  · rw [resolvedId_assign hash _ inpj dj hdj he.1 he.2.1 he.2.2, hnext]
  · rw [stateAt_succ hash bounds init _ inputs j inpj hgj, tick_cursors, hdj,
      he.2.1, he.2.2, resolveCursor_assign hash _ dj he.1, cursorsGet_cons,
      if_pos rfl, hnext]

/-- C7 witness: a seeded cache with one entry and next identity 1; the
first newly persisted cursor receives identity 1 and file cursor_1.png. -/
theorem seeded_continuity_witness :
    ([(5, ⟨cursorFileName (toString 0), 0, ⟨0, 0⟩⟩)] : Cursors).length = 1 ∧
    assignsNew (fun _ => 7)
      ⟨[(5, ⟨cursorFileName (toString 0), 0, ⟨0, 0⟩⟩)], 1, [], []⟩
      ⟨⟨(0, 0), []⟩, 0, 0, some ⟨[3], ⟨0, 0⟩⟩, true, true⟩ = true ∧
    (resolvedId (fun _ => 7)
        (stateAt (fun _ => 7) ⟨0, 0, 1, 1⟩ ⟨(0, 0), []⟩
          ⟨[(5, ⟨cursorFileName (toString 0), 0, ⟨0, 0⟩⟩)], 1, [], []⟩
          [⟨⟨(0, 0), []⟩, 0, 0, some ⟨[3], ⟨0, 0⟩⟩, true, true⟩] 0).2
        ⟨⟨(0, 0), []⟩, 0, 0, some ⟨[3], ⟨0, 0⟩⟩, true, true⟩ = some 1 ∧
      cursorsGet
          (stateAt (fun _ => 7) ⟨0, 0, 1, 1⟩ ⟨(0, 0), []⟩
            ⟨[(5, ⟨cursorFileName (toString 0), 0, ⟨0, 0⟩⟩)], 1, [], []⟩
            [⟨⟨(0, 0), []⟩, 0, 0, some ⟨[3], ⟨0, 0⟩⟩, true, true⟩] 1).2.cursors
          ((fun _ => 7) ([3] : List Nat)) =
        some ⟨cursorFileName (toString 1), 1, ⟨0, 0⟩⟩) := by
  have h := seeded_continuity (fun _ => 7) ⟨0, 0, 1, 1⟩ ⟨(0, 0), []⟩
    [(5, ⟨cursorFileName (toString 0), 0, ⟨0, 0⟩⟩)] 1
    [⟨⟨(0, 0), []⟩, 0, 0, some ⟨[3], ⟨0, 0⟩⟩, true, true⟩] 0
    ⟨⟨(0, 0), []⟩, 0, 0, some ⟨[3], ⟨0, 0⟩⟩, true, true⟩ ⟨[3], ⟨0, 0⟩⟩
    (by decide) (fun k inp hk _ => absurd hk (Nat.not_lt_zero k)) rfl rfl
    (by decide)
  exact ⟨by decide, by decide, h⟩

/-- C4: within one run, two resolutions that both yield an identity for
byte sequences with the same fingerprint yield the same identity, and two
ticks that each newly assign an identity (successful decode and persist
of fresh fingerprints) receive strictly increasing identities in
first-seen order. -/
theorem identity_stability (hash : List Nat → Nat) (bounds : Bounds)
    (init : MouseState) (s0 : CursorActorResponse) (inputs : List TickInput)
    (i j : Nat) (inpi inpj : TickInput) (di dj : CursorData) (a b : Nat)
    (hij : i < j)
    (hgi : inputs.get? i = some inpi) (hgj : inputs.get? j = some inpj)
    (hdi : inpi.cursor_data = some di) (hdj : inpj.cursor_data = some dj)
    (ha : resolvedId hash (stateAt hash bounds init s0 inputs i).2 inpi = some a)
    (hb : resolvedId hash (stateAt hash bounds init s0 inputs j).2 inpj = some b) :
    (hash di.image = hash dj.image → a = b) ∧
    (assignsNew hash (stateAt hash bounds init s0 inputs i).2 inpi = true →
      assignsNew hash (stateAt hash bounds init s0 inputs j).2 inpj = true →
      a < b) := by
  constructor
  · intro hf
    obtain ⟨c, hc, hcid⟩ := tick_cursorsGet_of_resolvedId hash bounds
      (stateAt hash bounds init s0 inputs i).1
      (stateAt hash bounds init s0 inputs i).2 inpi di a hdi ha
    rw [← stateAt_succ hash bounds init s0 inputs i inpi hgi] at hc
    have hcj := stateAt_cursorsGet_persist hash bounds init s0 inputs (i + 1) j
      (hash di.image) c (by omega) hc
    rw [hf] at hcj
    have hhit := resolvedId_hit hash
      (stateAt hash bounds init s0 inputs j).2 inpj dj c hdj hcj
    rw [hhit] at hb
    have hb2 : c.id = b := by simpa using hb
    omega
  · intro hai haj
    have hei := assignsNew_elim hash _ inpi di hdi hai
    have hej := assignsNew_elim hash _ inpj dj hdj haj
    have ha2 : (stateAt hash bounds init s0 inputs i).2.next_cursor_id = a := by
      rw [resolvedId_assign hash _ inpi di hdi hei.1 hei.2.1 hei.2.2] at ha
      simpa using ha
    have hb2 : (stateAt hash bounds init s0 inputs j).2.next_cursor_id = b := by
      rw [resolvedId_assign hash _ inpj dj hdj hej.1 hej.2.1 hej.2.2] at hb
      simpa using hb
    have hstep : (stateAt hash bounds init s0 inputs (i + 1)).2.next_cursor_id =
        (stateAt hash bounds init s0 inputs i).2.next_cursor_id + 1 := by
      rw [stateAt_succ hash bounds init s0 inputs i inpi hgi]
      exact tick_next_of_assign hash bounds _ _ inpi hai
    have hmono := stateAt_next_mono hash bounds init s0 inputs (i + 1) j
      (by omega)
    omega

/-- C4 witness: two fresh bitmaps persisted on consecutive ticks of one
run receive identities 0 then 1. -/
theorem identity_stability_witness :
    resolvedId (fun l => l.length)
      (stateAt (fun l => l.length) ⟨0, 0, 1, 1⟩ ⟨(0, 0), []⟩ ⟨[], 0, [], []⟩
        [⟨⟨(0, 0), []⟩, 0, 0, some ⟨[1], ⟨0, 0⟩⟩, true, true⟩,
         ⟨⟨(0, 0), []⟩, 0, 0, some ⟨[1, 2], ⟨0, 0⟩⟩, true, true⟩] 0).2
      ⟨⟨(0, 0), []⟩, 0, 0, some ⟨[1], ⟨0, 0⟩⟩, true, true⟩ = some 0 ∧
    resolvedId (fun l => l.length)
      (stateAt (fun l => l.length) ⟨0, 0, 1, 1⟩ ⟨(0, 0), []⟩ ⟨[], 0, [], []⟩
        [⟨⟨(0, 0), []⟩, 0, 0, some ⟨[1], ⟨0, 0⟩⟩, true, true⟩,
         ⟨⟨(0, 0), []⟩, 0, 0, some ⟨[1, 2], ⟨0, 0⟩⟩, true, true⟩] 1).2
      ⟨⟨(0, 0), []⟩, 0, 0, some ⟨[1, 2], ⟨0, 0⟩⟩, true, true⟩ = some 1 ∧
    (0 : Nat) < 1 := by
  have h := identity_stability (fun l => l.length) ⟨0, 0, 1, 1⟩ ⟨(0, 0), []⟩
    ⟨[], 0, [], []⟩
    [⟨⟨(0, 0), []⟩, 0, 0, some ⟨[1], ⟨0, 0⟩⟩, true, true⟩,
     ⟨⟨(0, 0), []⟩, 0, 0, some ⟨[1, 2], ⟨0, 0⟩⟩, true, true⟩]
    0 1 ⟨⟨(0, 0), []⟩, 0, 0, some ⟨[1], ⟨0, 0⟩⟩, true, true⟩
    ⟨⟨(0, 0), []⟩, 0, 0, some ⟨[1, 2], ⟨0, 0⟩⟩, true, true⟩
    ⟨[1], ⟨0, 0⟩⟩ ⟨[1, 2], ⟨0, 0⟩⟩ 0 1 (by omega) rfl rfl rfl rfl
    (by decide) (by decide)
  exact ⟨by decide, by decide, h.2 (by decide) (by decide)⟩

/-- C10: all events appended during a single tick carry the same
cursor_id (the tick's resolution string), the same process and unix
timestamps, and the same normalized x and y, each sampled once at the top
of the tick, and every emitted event has an empty active_modifiers
list. -/
theorem tick_event_uniformity (hash : List Nat → Nat) (bounds : Bounds)
    (last : MouseState) (s : CursorActorResponse) (inp : TickInput) :
    (∀ e ∈ (tick hash bounds last s inp).2.moves.drop s.moves.length,
      e.active_modifiers = [] ∧
      e.cursor_id =
        (resolveCursor hash s inp.cursor_data inp.decode_ok inp.save_ok).1 ∧
      e.process_time_ms = inp.elapsed ∧ e.unix_time_ms = inp.unix_time ∧
      e.x = normX bounds inp.mouse_state.coords ∧
      e.y = normY bounds inp.mouse_state.coords) ∧
    (∀ e ∈ (tick hash bounds last s inp).2.clicks.drop s.clicks.length,
      e.active_modifiers = [] ∧
      e.cursor_id =
        (resolveCursor hash s inp.cursor_data inp.decode_ok inp.save_ok).1 ∧
      e.process_time_ms = inp.elapsed ∧ e.unix_time_ms = inp.unix_time ∧
      e.x = normX bounds inp.mouse_state.coords ∧
      e.y = normY bounds inp.mouse_state.coords) := by
  constructor
  · intro e he
    rw [tick_eq] at he
    simp only [resolveCursor_moves, List.drop_left] at he
    by_cases hc : inp.mouse_state.coords ≠ last.coords
    · rw [if_pos hc] at he
      have : e = { active_modifiers := []
                   cursor_id := (resolveCursor hash s inp.cursor_data
                     inp.decode_ok inp.save_ok).1
                   process_time_ms := inp.elapsed
                   unix_time_ms := inp.unix_time
                   x := normX bounds inp.mouse_state.coords
                   y := normY bounds inp.mouse_state.coords } := by
        simpa using he
      subst this
      exact ⟨rfl, rfl, rfl, rfl, rfl, rfl⟩
    · rw [if_neg hc] at he
      exact absurd he (List.not_mem_nil e)
  · intro e he
    rw [tick_eq] at he
    simp only [resolveCursor_clicks, List.drop_left] at he
    exact clickEventsFrom_fields last.button_pressed _ _ _ _ _
      inp.mouse_state.button_pressed 0 e he

/-- C10 witness: the uniformity theorem applied to the move event of a
concrete tick. -/
theorem tick_event_uniformity_witness :
    ({ active_modifiers := [], cursor_id := "default", process_time_ms := 5,
       unix_time_ms := 6, x := normX ⟨0, 0, 1, 1⟩ (1, 1),
       y := normY ⟨0, 0, 1, 1⟩ (1, 1) } : CursorMoveEvent).active_modifiers
      = [] ∧
    ({ active_modifiers := [], cursor_id := "default", process_time_ms := 5,
       unix_time_ms := 6, x := normX ⟨0, 0, 1, 1⟩ (1, 1),
       y := normY ⟨0, 0, 1, 1⟩ (1, 1) } : CursorMoveEvent).cursor_id
      = "default" := by
  have h := (tick_event_uniformity (fun _ => 0) ⟨0, 0, 1, 1⟩ ⟨(0, 0), []⟩
    ⟨[], 0, [], []⟩ ⟨⟨(1, 1), []⟩, 5, 6, none, false, false⟩).1
    { active_modifiers := [], cursor_id := "default", process_time_ms := 5,
      unix_time_ms := 6, x := normX ⟨0, 0, 1, 1⟩ (1, 1),
      y := normY ⟨0, 0, 1, 1⟩ (1, 1) }
    (by rw [tick_eq]; simp [resolveCursor_moves, List.drop_left]; rfl)
  exact ⟨h.1, h.2.1⟩
